import Mathlib

/-!
Verification development for the M&A outreach email generation pipeline
(`src/agent.py`).  Python strings are modelled as `List Char`; Python values
decoded from JSON as the inductive `PyVal`; Python exceptions as the
inductive `PyErr`.  Fallible Python code is embedded as functions into
`Except PyErr _`.  External collaborators (the LLM call, the filesystem
backing the advisor profile) are passed in as explicit parameters.
-/

namespace Agent

/-- Convert a Lean string literal to the `List Char` representation used for
Python strings throughout this development. -/
def S (s : String) : List Char := s.data

/-- Whitespace test used by Python `str.strip` / `str.split` for the ASCII
range: space, tab, newline, carriage return, vertical tab, form feed. -/
def isPyWs (c : Char) : Bool :=
  c = ' ' || c = '\t' || c = '\n' || c = '\r' || c = '\x0b' || c = '\x0c'

/-- Remove leading whitespace (Python `str.lstrip`). -/
def ltrim (s : List Char) : List Char := s.dropWhile isPyWs

/-- Python `str.strip()`: remove trailing whitespace (via the reverse), then
leading whitespace. -/
def stripL (s : List Char) : List Char := ltrim ((ltrim s.reverse).reverse)

/-- Auxiliary scan for `findSub`: returns `some (i + offset)` for the first
position `i` (from the left) where `pat` is a prefix of the remaining text. -/
def findSubAux (pat : List Char) : List Char → Nat → Option Nat
  | s@([]), i => if pat.isPrefixOf s then some i else none
  | s@(_ :: t), i => if pat.isPrefixOf s then some i else findSubAux pat t (i + 1)

/-- Python `str.find` (for patterns known to occur; `none` models `-1`):
index of the first occurrence of `pat` in `s`. -/
def findSub (s pat : List Char) : Option Nat := findSubAux pat s 0

/-- Python `in` on strings: substring containment. -/
def containsSub (s pat : List Char) : Bool := (findSub s pat).isSome

/-- Scan for `rfindSub`: checks positions `i, i-1, ..., 0` and returns the
first (hence largest) one where `pat` is a prefix of `s.drop i`. -/
def rfindFrom (s pat : List Char) : Nat → Option Nat
  | 0 => if pat.isPrefixOf s then some 0 else none
  | i + 1 =>
    if pat.isPrefixOf (s.drop (i + 1)) then some (i + 1) else rfindFrom s pat i

/-- Python `str.rfind` (`none` models `-1`): index of the last occurrence of
`pat` in `s`. -/
def rfindSub (s pat : List Char) : Option Nat := rfindFrom s pat s.length

/-- Python slicing `s[a:b]` for `0 ≤ a ≤ b ≤ len s`. -/
def sliceL (s : List Char) (a b : Nat) : List Char := (s.drop a).take (b - a)

/-- Auxiliary scan for Python `str.split()` with no separator: accumulate the
current word (reversed) and break on whitespace runs. -/
def pySplitAux : List Char → List Char → List (List Char)
  | [], acc => if acc.isEmpty then [] else [acc.reverse]
  | c :: cs, acc =>
    if isPyWs c then
      if acc.isEmpty then pySplitAux cs [] else acc.reverse :: pySplitAux cs []
    else pySplitAux cs (c :: acc)

/-- Python `str.split()` (no argument): split on whitespace runs, dropping
empty pieces. -/
def pySplitWs (s : List Char) : List (List Char) := pySplitAux s []

/-- Word count of a body string, as computed by `len(body.split())`. -/
def wordCount (s : List Char) : Nat := (pySplitWs s).length

/-- Kinds of Python exception observed at the boundaries modelled here. -/
inductive PyErr where
  | keyError
  | jsonDecodeError
  | attributeError
  | nameError
  | otherError
deriving DecidableEq

/-- Python values produced by `json.loads` (restricted to the JSON fragment
exercised by this program: null, booleans, integers, strings, arrays,
objects with string keys). -/
inductive PyVal where
  | pynone
  | pybool (b : Bool)
  | pyint (n : Int)
  | pystr (s : List Char)
  | pylist (xs : List PyVal)
  | pydict (kvs : List (List Char × PyVal))

/-- Lookup in a Python dict of `PyVal`s (modelled as an association list with
distinct keys). -/
def lookupPV : List (List Char × PyVal) → List Char → Option PyVal
  | [], _ => none
  | (k, v) :: rest, key => if k = key then some v else lookupPV rest key

/-- Lookup in a Python dict of strings (the company record). -/
def lookupStr : List (List Char × List Char) → List Char → Option (List Char)
  | [], _ => none
  | (k, v) :: rest, key => if k = key then some v else lookupStr rest key

/-- JSON whitespace accepted between tokens by the decoder. -/
def isJsonWs (c : Char) : Bool := c = ' ' || c = '\t' || c = '\n' || c = '\r'

/-- Skip JSON inter-token whitespace. -/
def skipWs (s : List Char) : List Char := s.dropWhile isJsonWs

/-- Decode one JSON string body (after the opening quote), handling the
standard single-character escapes; `\u` escapes are not needed by this
development and are rejected. Returns the string and the rest of the input. -/
def parseStringBody : List Char → Option (List Char × List Char)
  | [] => none
  | '"' :: rest => some ([], rest)
  | '\\' :: e :: rest =>
    ((match e with
      | '"' => some '"'
      | '\\' => some '\\'
      | '/' => some '/'
      | 'n' => some '\n'
      | 't' => some '\t'
      | 'r' => some '\r'
      | 'b' => some '\x08'
      | 'f' => some '\x0c'
      | _ => none : Option Char)).bind fun c =>
      (parseStringBody rest).map fun p => (c :: p.1, p.2)
  | c :: rest => (parseStringBody rest).map fun p => (c :: p.1, p.2)

/-- Decode a run of decimal digits into a natural number; requires at least
one digit. -/
def parseDigits (s : List Char) : Option (Nat × List Char) :=
  let ds := s.takeWhile Char.isDigit
  if ds.isEmpty then none
  else some (ds.foldl (fun n c => n * 10 + (c.toNat - 48)) 0, s.dropWhile Char.isDigit)

mutual

/-- Decode one JSON value (fuelled recursion; the fuel is an upper bound on
nesting depth). Models Python `json.loads` on the fragment this program
exercises; JSON floats and `\u` escapes are rejected rather than decoded. -/
def parseVal : Nat → List Char → Option (PyVal × List Char)
  | 0, _ => none
  | fuel + 1, cs =>
    match skipWs cs with
    | 'n' :: 'u' :: 'l' :: 'l' :: rest => some (.pynone, rest)
    | 't' :: 'r' :: 'u' :: 'e' :: rest => some (.pybool true, rest)
    | 'f' :: 'a' :: 'l' :: 's' :: 'e' :: rest => some (.pybool false, rest)
    | '"' :: rest => (parseStringBody rest).map fun p => (.pystr p.1, p.2)
    | '[' :: rest =>
      (match skipWs rest with
       | ']' :: rest2 => some (.pylist [], rest2)
       | other => (parseArrItems fuel other).map fun p => (.pylist p.1, p.2))
    | '{' :: rest =>
      (match skipWs rest with
       | '}' :: rest2 => some (.pydict [], rest2)
       | other => (parseObjItems fuel other).map fun p => (.pydict p.1, p.2))
    | '-' :: rest => (parseDigits rest).map fun p => (.pyint (-(p.1 : Int)), p.2)
    | other => (parseDigits other).map fun p => (.pyint (p.1 : Int), p.2)

/-- Decode the items of a JSON array after its opening bracket (at least one
item; the empty array is handled by the caller). -/
def parseArrItems : Nat → List Char → Option (List PyVal × List Char)
  | 0, _ => none
  | fuel + 1, cs =>
    (parseVal fuel cs).bind fun p =>
      match skipWs p.2 with
      | ']' :: rest => some ([p.1], rest)
      | ',' :: rest => (parseArrItems fuel rest).map fun q => (p.1 :: q.1, q.2)
      | _ => none

/-- Decode the members of a JSON object after its opening brace (at least one
member; the empty object is handled by the caller). -/
def parseObjItems : Nat → List Char → Option (List (List Char × PyVal) × List Char)
  | 0, _ => none
  | fuel + 1, cs =>
    match skipWs cs with
    | '"' :: rest =>
      (parseStringBody rest).bind fun k =>
        match skipWs k.2 with
        | ':' :: rest2 =>
          (parseVal fuel rest2).bind fun v =>
            match skipWs v.2 with
            | '}' :: rest3 => some ([(k.1, v.1)], rest3)
            | ',' :: rest3 => (parseObjItems fuel rest3).map fun q => ((k.1, v.1) :: q.1, q.2)
            | _ => none
        | _ => none
    | _ => none

end

/-- Model of Python `json.loads`: decode a full JSON document, requiring only
whitespace after the value; any failure is a `json.JSONDecodeError`. -/
def jsonLoads (s : List Char) : Except PyErr PyVal :=
  match parseVal (s.length + 1) s with
  | some (v, rest) => if (skipWs rest).isEmpty then .ok v else .error .jsonDecodeError
  | none => .error .jsonDecodeError

/-- Module constant `SCRAPED_CONTENT_LIMIT` from `agent.py`. -/
def SCRAPED_CONTENT_LIMIT : Nat := 1500

/-- Module constant `MIN_WORD_COUNT` from `agent.py`. -/
def MIN_WORD_COUNT : Nat := 150

/-- Module constant `MAX_WORD_COUNT` from `agent.py`. -/
def MAX_WORD_COUNT : Nat := 250

/-- Render a natural number the way a Python f-string renders an `int`. -/
def natStr (n : Nat) : List Char := (Nat.repr n).data

/-- The key `"company_name"`. -/
def kCompanyName : List Char := S "company_name"

/-- The key `"industry"`. -/
def kIndustry : List Char := S "industry"

/-- The key `"revenue"`. -/
def kRevenue : List Char := S "revenue"

/-- The key `"website"`. -/
def kWebsite : List Char := S "website"

/-- The key `"scraped_content"`. -/
def kScrapedContent : List Char := S "scraped_content"

/-- The key `"email_subject"`. -/
def kEmailSubject : List Char := S "email_subject"

/-- The key `"email_body"`. -/
def kEmailBody : List Char := S "email_body"

/-- Fallback sentence returned by `load_advisor_profile` on every failure
path. -/
def fallbackProfile : List Char :=
  S "Experienced M&A advisor with diverse deal experience across multiple industries."

/-- The state of the filesystem resource backing the advisor profile: the
file may be missing, unreadable (any I/O failure), or readable with some
content. -/
inductive ProfileSource where
  | missing
  | unreadable
  | readable (content : List Char)

/-- Embedding of `load_advisor_profile` (`agent.py` lines 26-48). The
`try`/`except` in the source catches every exception and returns the
fallback sentence, so the embedding is a total function of the filesystem
state: missing file, unreadable file, and whitespace-only content all give
the fallback; otherwise the stripped content is returned. -/
def load_advisor_profile : ProfileSource → List Char
  | .missing => fallbackProfile
  | .unreadable => fallbackProfile
  | .readable content =>
    let c := stripL content
    if c.isEmpty then fallbackProfile else c

/-- Literal segment of the prompt f-string before `{advisor_profile}`. -/
def tplA : List Char :=
  S "You are an expert M&A advisor assistant drafting a personalized outreach email to a business owner.\n\n## Context\n\n**Advisor Profile:**\n"

/-- Literal segment between `{advisor_profile}` and `{company_data['company_name']}`. -/
def tplB : List Char :=
  S "\n\n**Target Company (from web scraping):**\n- Company Name: "

/-- Literal segment before `{company_data['industry']}`. -/
def tplC : List Char := S "\n- Industry: "

/-- Literal segment before `{company_data['revenue']}`. -/
def tplD : List Char := S "\n- Revenue: "

/-- Literal segment before `{company_data['website']}`. -/
def tplE : List Char := S "\n- Website: "

/-- Literal segment before the scraped-content placeholder. -/
def tplF : List Char := S "\n- Company Intelligence: "

/-- Literal segment between the scraped snippet and the second
`{company_data['industry']}` hole. -/
def tplG : List Char :=
  S "\n\n## Your Task\n\nCreate a highly personalized email that:\n\n### Content Structure\n1. **Opening Hook**: Reference something specific from the scraped content—recent news, product launches, company achievements, or shared location. Be concrete, not generic.\n\n2. **Value Proposition**: Connect the advisor\x27s specific deal experience to this company\x27s industry ("

/-- Literal segment between the second and third `{company_data['industry']}`
holes. -/
def tplH : List Char :=
  S "). Mention relevant buyer interest (e.g., \"strategic buyers focused on "

/-- Literal segment between the third `{company_data['industry']}` hole and
`{MIN_WORD_COUNT}`. -/
def tplI : List Char :=
  S " businesses\").\n\n3. **Call-to-Action**: Professional request for a 15-minute exploratory conversation.\n\n### Strict Requirements\n- **Length**: "

/-- Literal tail of the prompt f-string, after `{MAX_WORD_COUNT}`. -/
def tplK : List Char :=
  S " words for email body (count carefully)\n- **Tone**: Professional and consultative—not salesy\n- **Company Name**: Use brand name as they\x27d refer to themselves, not legal entity name\n- **Recipient**: Address as \"[Company Owner]\" \n- **Formatting**: Production-ready—proper paragraphs, no signature block\n- **Language**: Industry-standard terminology, accessible to non-experts\n\n### Critical Rules\n- DO NOT include sender signature or contact details\n- DO NOT be generic—every sentence must reflect this specific company\n- DO NOT exceed word count\n- Use insights from scraped content to demonstrate research\n\n## Output Format\n\nReturn ONLY valid JSON (no markdown, no extra text):\n\n\x7b\n  \"email_subject\": \"Engaging subject under 60 characters\",\n  \"email_body\": \"Complete email body text\"\n\x7d\n"

/-- Embedding of `build_email_prompt` (`agent.py` lines 51-113). The company
record is a Python dict of strings; `scraped_content` is read with
`.get(..., '')` and truncated to `SCRAPED_CONTENT_LIMIT` characters, while
`company_name`, `industry`, `revenue` and `website` are read with `[...]`,
raising `KeyError` when absent (in the f-string's evaluation order). The
result is the rendered f-string. -/
def build_email_prompt (company : List (List Char × List Char)) (profile : List Char) :
    Except PyErr (List Char) :=
  let scraped_snippet := ((lookupStr company kScrapedContent).getD []).take SCRAPED_CONTENT_LIMIT
  match lookupStr company kCompanyName with
  | none => .error .keyError
  | some nm =>
    match lookupStr company kIndustry with
    | none => .error .keyError
    | some ind =>
      match lookupStr company kRevenue with
      | none => .error .keyError
      | some rev =>
        match lookupStr company kWebsite with
        | none => .error .keyError
        | some web =>
          .ok (tplA ++ profile ++ tplB ++ nm ++ tplC ++ ind ++ tplD ++ rev ++ tplE ++ web
            ++ tplF
            ++ (if scraped_snippet.isEmpty then S "Limited data available" else scraped_snippet)
            ++ tplG ++ ind ++ tplH ++ ind ++ tplI
            ++ natStr MIN_WORD_COUNT ++ S "-" ++ natStr MAX_WORD_COUNT ++ tplK)

/-- Embedding of `validate_email_output` (`agent.py` lines 116-143).
`not email or not isinstance(email, dict)` rejects every non-dict value and
the empty dict; a dict missing `email_subject` or `email_body` is rejected;
otherwise `email.get('email_body', '')` is taken and `body.split()` is
called on it, which raises `AttributeError` when the value is not a string;
the word count only feeds a warning and the function returns `True`. -/
def validate_email_output : PyVal → Except PyErr Bool
  | .pydict [] => .ok false
  | .pydict (kv :: kvs) =>
    if (lookupPV (kv :: kvs) kEmailSubject).isNone
        || (lookupPV (kv :: kvs) kEmailBody).isNone then .ok false
    else
      match (lookupPV (kv :: kvs) kEmailBody).getD (.pystr []) with
      | .pystr _ => .ok true
      | _ => .error .attributeError
  | _ => .ok false

/-- Embedding of the response-cleaning step of `generate_personalized_email`
(`agent.py` lines 188-199): strip the raw response; if it contains
`"```json"`, extract between the end of the first `"```json"` and the last
`"```"` when that span is non-empty, stripping the extract; otherwise, if
the stripped response both starts and ends with `"```"`, peel one generic
fence layer; otherwise keep the stripped response. -/
def cleanResponse (response : List Char) : List Char :=
  let cleaned := stripL response
  match findSub cleaned (S "```json") with
  | some i =>
    let start := i + 7
    match rfindSub cleaned (S "```") with
    | some e => if start < e then stripL (sliceL cleaned start e) else cleaned
    | none => cleaned
  | none =>
    if (S "```").isPrefixOf cleaned && (S "```").isSuffixOf cleaned then
      stripL ((cleaned.drop 3).take (cleaned.length - 6))
    else cleaned

/-- The parse step of `generate_personalized_email` (lines 188-201): clean
the raw response, then decode it with `json.loads`. -/
def parseResponse (response : List Char) : Except PyErr PyVal :=
  jsonLoads (cleanResponse response)

/-- Embedding of `generate_personalized_email` (`agent.py` lines 146-216).
The LLM collaborator is a parameter `llm`: either a raw text response or an
exception of some kind. The advisor profile is a parameter (the source
caches `load_advisor_profile()` in a function attribute; the cache never
raises). The `try` body builds the prompt (which may raise `KeyError`),
invokes the collaborator, cleans and decodes the response, evaluates
`company_data['company_name']` for the `validate_email_output` call, and
returns the decoded email when validation succeeds, `None` when it returns
`False`. The except clauses re-read `company_data['company_name']` for
their log lines (raising `KeyError` when it is absent), and the
`json.JSONDecodeError` handler additionally prints `response[:200]`, which
raises an unbound-local `NameError` when the exception arose before
`response` was assigned (i.e. from the collaborator call itself). The
`Bool` recorded alongside an error in the try body tracks whether
`response` was bound when the exception was raised. -/
def generate_personalized_email (company : List (List Char × List Char))
    (profile : List Char) (llm : Except PyErr (List Char)) :
    Except PyErr (Option PyVal) :=
  let tryBody : Except (PyErr × Bool) (Option PyVal) :=
    match build_email_prompt company profile with
    | .error e => .error (e, false)
    | .ok _prompt =>
      match llm with
      | .error e => .error (e, false)
      | .ok response =>
        match jsonLoads (cleanResponse response) with
        | .error e => .error (e, true)
        | .ok email =>
          match lookupStr company kCompanyName with
          | none => .error (.keyError, true)
          | some _ =>
            match validate_email_output email with
            | .error e => .error (e, true)
            | .ok valid => .ok (if valid then some email else none)
  match tryBody with
  | .ok r => .ok r
  | .error (e, responseBound) =>
    match lookupStr company kCompanyName with
    | none => .error .keyError
    | some _ =>
      if e = .jsonDecodeError then
        if responseBound then .ok none else .error .nameError
      else .ok none

/-- A decoded value is a dict carrying both required email fields. -/
def hasBothFields : PyVal → Bool
  | .pydict kvs => (lookupPV kvs kEmailSubject).isSome && (lookupPV kvs kEmailBody).isSome
  | _ => false

/-- Validation can only succeed on a dict that contains both required
fields. -/
theorem validate_ok_true_both_fields (v : PyVal)
    (h : validate_email_output v = .ok true) : hasBothFields v = true := by
  match v with
  | .pynone | .pybool _ | .pyint _ | .pystr _ | .pylist _ =>
    simp [validate_email_output] at h
  | .pydict [] => simp [validate_email_output] at h
  | .pydict (kv :: kvs) =>
    rw [validate_email_output] at h
    by_cases hc : (lookupPV (kv :: kvs) kEmailSubject).isNone
        || (lookupPV (kv :: kvs) kEmailBody).isNone
    · rw [if_pos hc] at h
      exact absurd (Except.ok.inj h) Bool.false_ne_true
    · cases hs : lookupPV (kv :: kvs) kEmailSubject with
      | none => simp [hs] at hc
      | some a =>
        cases hb2 : lookupPV (kv :: kvs) kEmailBody with
        | none => simp [hb2] at hc
        | some b => simp [hasBothFields, hs, hb2]

/-- C9: for every fixed pair of a company record and an advisor-profile
string, two calls of `build_email_prompt` on the same pair return
byte-identical strings. The embedding is a pure function — faithful to the
source, which reads only its arguments and immutable module constants — so
repeated application at equal inputs is definitionally equal. -/
theorem build_prompt_deterministic :
    ∀ (company : List (List Char × List Char)) (profile : List Char),
      build_email_prompt company profile = build_email_prompt company profile :=
  fun _ _ => rfl

/-- C10: `build_email_prompt` raises `KeyError` whenever the company record
lacks any of `company_name`, `industry`, `revenue`, `website` (only
`scraped_content` is read with a default), and returns a string whenever
all four are present. -/
theorem build_prompt_key_preconditions :
    (∀ c p, lookupStr c kCompanyName = none →
      build_email_prompt c p = .error .keyError)
  ∧ (∀ c p, lookupStr c kIndustry = none →
      build_email_prompt c p = .error .keyError)
  ∧ (∀ c p, lookupStr c kRevenue = none →
      build_email_prompt c p = .error .keyError)
  ∧ (∀ c p, lookupStr c kWebsite = none →
      build_email_prompt c p = .error .keyError)
  ∧ (∀ c p, lookupStr c kCompanyName ≠ none → lookupStr c kIndustry ≠ none →
      lookupStr c kRevenue ≠ none → lookupStr c kWebsite ≠ none →
      ∃ s, build_email_prompt c p = .ok s) := by
  refine ⟨fun c p h => ?_, fun c p h => ?_, fun c p h => ?_, fun c p h => ?_,
    fun c p h1 h2 h3 h4 => ?_⟩
  · simp [build_email_prompt, h]
  · cases hn : lookupStr c kCompanyName <;> simp [build_email_prompt, h, hn]
  · cases hn : lookupStr c kCompanyName <;>
      cases hi : lookupStr c kIndustry <;>
      simp [build_email_prompt, h, hn, hi]
  · cases hn : lookupStr c kCompanyName <;>
      cases hi : lookupStr c kIndustry <;>
      cases hr : lookupStr c kRevenue <;>
      simp [build_email_prompt, h, hn, hi, hr]
  · cases hn : lookupStr c kCompanyName with
    | none => exact absurd hn h1
    | some nm =>
      cases hi : lookupStr c kIndustry with
      | none => exact absurd hi h2
      | some ind =>
        cases hr : lookupStr c kRevenue with
        | none => exact absurd hr h3
        | some rev =>
          cases hw : lookupStr c kWebsite with
          | none => exact absurd hw h4
          | some web =>
            cases hres : build_email_prompt c p with
            | ok s => exact ⟨s, rfl⟩
            | error e => simp [build_email_prompt, hn, hi, hr, hw] at hres

/-- Witness for C10 at concrete inputs: the empty record raises `KeyError`,
and a record with the four required keys (and no `scraped_content`) renders
a prompt. -/
theorem build_prompt_key_preconditions_witness :
    build_email_prompt [] [] = .error .keyError
  ∧ ∃ s, build_email_prompt
      [(kCompanyName, S "Acme"), (kIndustry, S "I"), (kRevenue, S "R"),
        (kWebsite, S "W")] [] = .ok s :=
  ⟨build_prompt_key_preconditions.1 [] [] rfl,
    build_prompt_key_preconditions.2.2.2.2 _ []
      (by decide) (by decide) (by decide) (by decide)⟩

/-- C7: `load_advisor_profile` never fails outward; a missing file, an
unreadable file, and content that is empty after trimming all yield the
fixed fallback sentence, and otherwise the trimmed content is returned
verbatim. -/
theorem load_profile_policy :
    load_advisor_profile .missing = fallbackProfile
  ∧ load_advisor_profile .unreadable = fallbackProfile
  ∧ ∀ content, load_advisor_profile (.readable content) =
      (if (stripL content).isEmpty then fallbackProfile else stripL content) :=
  ⟨rfl, rfl, fun _ => rfl⟩

/-- C5 counterexample: on a dict that has both required keys but a
non-string `email_body` (here the integer 300), `validate_email_output`
raises `AttributeError` (from `body.split()`) instead of returning a
boolean, refuting the claim that it never raises on inputs of any shape. -/
theorem validate_raises_on_nonstring_body :
    validate_email_output
      (.pydict [(kEmailSubject, .pystr (S "subject")), (kEmailBody, .pyint 300)]) =
      .error .attributeError := rfl

/-- C5 amended: `validate_email_output` returns a boolean and never raises
on every input except a dict that contains both required keys with a
non-string `email_body` value; on exactly those it raises
`AttributeError`. -/
theorem validate_total_unless_nonstring_body :
    ∀ v : PyVal,
      (∃ b, validate_email_output v = .ok b) ∨
      (validate_email_output v = .error .attributeError ∧
        ∃ kvs, v = .pydict kvs ∧ (lookupPV kvs kEmailSubject).isSome ∧
          ∃ u, lookupPV kvs kEmailBody = some u ∧ ∀ s, u ≠ .pystr s) := by
  intro v
  match v with
  | .pynone | .pybool _ | .pyint _ | .pystr _ | .pylist _ =>
    exact Or.inl ⟨false, rfl⟩
  | .pydict [] => exact Or.inl ⟨false, rfl⟩
  | .pydict (kv :: kvs) =>
    by_cases hc : ((lookupPV (kv :: kvs) kEmailSubject).isNone
        || (lookupPV (kv :: kvs) kEmailBody).isNone) = true
    · exact Or.inl ⟨false, by rw [validate_email_output, if_pos hc]⟩
    · cases hs : lookupPV (kv :: kvs) kEmailSubject with
      | none => exact absurd (by simp [hs]) hc
      | some a =>
        cases hb : lookupPV (kv :: kvs) kEmailBody with
        | none => exact absurd (by simp [hb]) hc
        | some u =>
          match hu : u with
          | .pystr s =>
            refine Or.inl ⟨true, ?_⟩
            rw [validate_email_output, if_neg hc]
            simp [hb]
          | .pynone | .pybool _ | .pyint _ | .pylist _ | .pydict _ =>
            refine Or.inr ⟨?_, (kv :: kvs), rfl, by simp [hs], u, by rw [hb, hu], ?_⟩
            · rw [validate_email_output, if_neg hc]
              simp [hb, hu]
            · intro s hcontra
              rw [hu] at hcontra
              exact PyVal.noConfusion hcontra

/-- C4: validation asymmetry. An absent record, a non-dict record, and a
dict missing either required key all validate `false`; a dict with both
keys and a string body whose word count lies outside
`[MIN_WORD_COUNT, MAX_WORD_COUNT]` still validates `true`. -/
theorem validate_structural_fatal_wordcount_advisory :
    validate_email_output .pynone = .ok false
  ∧ (∀ v : PyVal, (∀ kvs, v ≠ .pydict kvs) → validate_email_output v = .ok false)
  ∧ (∀ kvs, (lookupPV kvs kEmailSubject = none ∨ lookupPV kvs kEmailBody = none) →
      validate_email_output (.pydict kvs) = .ok false)
  ∧ (∀ kvs s, (lookupPV kvs kEmailSubject).isSome →
      lookupPV kvs kEmailBody = some (.pystr s) →
      (wordCount s < MIN_WORD_COUNT ∨ MAX_WORD_COUNT < wordCount s) →
      validate_email_output (.pydict kvs) = .ok true) := by
  refine ⟨rfl, fun v h => ?_, fun kvs h => ?_, fun kvs s hs hb _ => ?_⟩
  · match v with
    | .pynone | .pybool _ | .pyint _ | .pystr _ | .pylist _ => rfl
    | .pydict kvs => exact absurd rfl (h kvs)
  · match kvs with
    | [] => rfl
    | kv :: rest =>
      rw [validate_email_output, if_pos]
      rcases h with h | h <;> simp [h]
  · match kvs with
    | [] => simp [lookupPV] at hb
    | kv :: rest =>
      rw [validate_email_output, if_neg]
      · simp [hb]
      · simp [hb]
        cases hx : lookupPV (kv :: rest) kEmailSubject with
        | none => rw [hx] at hs; exact absurd hs (by simp)
        | some a => simp

/-- A 300-word body used to witness the advisory (non-fatal) word-count
breach. -/
def body300 : List Char := List.intercalate [' '] (List.replicate 300 ['w'])

set_option maxRecDepth 40000 in
/-- Witness for C4: a concrete record with both fields and a 300-word body —
outside `[150, 250]` — still validates `true`. -/
theorem validate_structural_fatal_wordcount_advisory_witness :
    MAX_WORD_COUNT < wordCount body300
  ∧ validate_email_output
      (.pydict [(kEmailSubject, .pystr (S "A")), (kEmailBody, .pystr body300)]) = .ok true :=
  ⟨by decide,
    validate_structural_fatal_wordcount_advisory.2.2.2 _ body300
      rfl rfl (Or.inr (by decide))⟩

/-- C1: for every company record, profile, and collaborator behaviour,
`generate_personalized_email` returns either `None` or a dict containing
both `email_subject` and `email_body`; a returned non-`None` value is never
missing either key. -/
theorem generate_none_or_both_fields :
    ∀ (company : List (List Char × List Char)) (profile : List Char)
      (llm : Except PyErr (List Char)) (v : PyVal),
      generate_personalized_email company profile llm = .ok (some v) →
      hasBothFields v = true := by
  intro company profile llm v h
  simp only [generate_personalized_email] at h
  cases hb : build_email_prompt company profile with
  | error e =>
    simp only [hb] at h
    cases hn : lookupStr company kCompanyName with
    | none => simp [hn] at h
    | some nm => by_cases hj : e = PyErr.jsonDecodeError <;> simp [hn, hj] at h
  | ok prompt =>
    simp only [hb] at h
    cases hl : llm with
    | error e =>
      simp only [hl] at h
      cases hn : lookupStr company kCompanyName with
      | none => simp [hn] at h
      | some nm => by_cases hj : e = PyErr.jsonDecodeError <;> simp [hn, hj] at h
    | ok response =>
      simp only [hl] at h
      cases hd : jsonLoads (cleanResponse response) with
      | error e =>
        simp only [hd] at h
        cases hn : lookupStr company kCompanyName with
        | none => simp [hn] at h
        | some nm => by_cases hj : e = PyErr.jsonDecodeError <;> simp [hn, hj] at h
      | ok email =>
        simp only [hd] at h
        cases hn : lookupStr company kCompanyName with
        | none => simp [hn] at h
        | some nm =>
          simp only [hn] at h
          cases hv : validate_email_output email with
          | error e =>
            simp only [hv] at h
            by_cases hj : e = PyErr.jsonDecodeError <;> simp [hn, hj] at h
          | ok valid =>
            simp only [hv] at h
            cases valid with
            | false => simp at h
            | true =>
              simp at h
              exact h ▸ validate_ok_true_both_fields email hv

/-- Company record used to exercise `generate_personalized_email` on
concrete collaborator behaviours. -/
def companyAcme : List (List Char × List Char) :=
  [(kCompanyName, S "Acme Filters"), (kIndustry, S "Industrial"),
    (kRevenue, S "$10M"), (kWebsite, S "acme.com"), (kScrapedContent, S "")]

/-- Witness for C1: a concrete collaborator response that decodes and
validates, on which the pipeline returns the decoded record, which indeed
carries both fields. -/
theorem generate_none_or_both_fields_witness :
    hasBothFields
      (.pydict [(kEmailSubject, .pystr (S "s")), (kEmailBody, .pystr (S "b"))]) = true :=
  generate_none_or_both_fields companyAcme (S "profile")
    (.ok (S "\x7b\"email_subject\": \"s\", \"email_body\": \"b\"\x7d")) _ rfl

/-- C2 (code bug): when the collaborator call itself raises
`json.JSONDecodeError`, the first `except` clause catches it and then
evaluates `response[:200]` — but `response` was never assigned, so an
unbound-local `NameError` propagates out of `generate_personalized_email`
instead of the function returning `None`, contradicting both the claim and
the function's own docstring ("Returns None if generation fails"). -/
theorem generate_propagates_on_collaborator_json_error :
    generate_personalized_email companyAcme (S "profile") (.error .jsonDecodeError) =
      .error .nameError := rfl

/-- Everything of the rendered prompt before the scraped snippet. -/
def promptPrefixPart (p nm ind rev web : List Char) : List Char :=
  tplA ++ p ++ tplB ++ nm ++ tplC ++ ind ++ tplD ++ rev ++ tplE ++ web ++ tplF

/-- Everything of the rendered prompt after the scraped snippet. -/
def promptSuffixPart (ind : List Char) : List Char :=
  tplG ++ ind ++ tplH ++ ind ++ tplI
    ++ natStr MIN_WORD_COUNT ++ S "-" ++ natStr MAX_WORD_COUNT ++ tplK

/-- C6: whenever `scraped_content` is longer than `SCRAPED_CONTENT_LIMIT`
(1500), the rendered prompt embeds exactly the first 1500 characters of
that field — a prefix cut of length exactly 1500 — between the fixed
surrounding parts, and no more of it. -/
theorem prompt_embeds_scraped_prefix :
    ∀ c p nm ind rev web scraped,
      lookupStr c kCompanyName = some nm →
      lookupStr c kIndustry = some ind →
      lookupStr c kRevenue = some rev →
      lookupStr c kWebsite = some web →
      lookupStr c kScrapedContent = some scraped →
      SCRAPED_CONTENT_LIMIT < scraped.length →
      build_email_prompt c p =
        .ok (promptPrefixPart p nm ind rev web
          ++ scraped.take SCRAPED_CONTENT_LIMIT ++ promptSuffixPart ind)
      ∧ (scraped.take SCRAPED_CONTENT_LIMIT).length = SCRAPED_CONTENT_LIMIT := by
  intro c p nm ind rev web scraped h1 h2 h3 h4 h5 h6
  have hlen : (scraped.take SCRAPED_CONTENT_LIMIT).length = SCRAPED_CONTENT_LIMIT := by
    rw [List.length_take]
    omega
  have hne : (scraped.take SCRAPED_CONTENT_LIMIT).isEmpty = false := by
    cases hq : scraped.take SCRAPED_CONTENT_LIMIT with
    | nil => rw [hq] at hlen; simp [SCRAPED_CONTENT_LIMIT] at hlen
    | cons a t => rfl
  refine ⟨?_, hlen⟩
  simp only [build_email_prompt, h1, h2, h3, h4, h5, Option.getD_some, hne,
    Bool.false_eq_true, if_false, promptPrefixPart, promptSuffixPart,
    List.append_assoc]

/-- Company record used to witness the truncation bound: its
`scraped_content` has 1501 characters. -/
def companyLongScrape : List (List Char × List Char) :=
  [(kCompanyName, S "Acme"), (kIndustry, S "I"), (kRevenue, S "R"),
    (kWebsite, S "W"), (kScrapedContent, List.replicate 1501 'a')]

/-- Witness for C6 at a concrete record whose `scraped_content` is 1501
characters long: the prompt embeds exactly its first 1500 characters. -/
theorem prompt_embeds_scraped_prefix_witness :
    build_email_prompt companyLongScrape (S "p") =
      .ok (promptPrefixPart (S "p") (S "Acme") (S "I") (S "R") (S "W")
        ++ (List.replicate 1501 'a').take SCRAPED_CONTENT_LIMIT
        ++ promptSuffixPart (S "I"))
    ∧ ((List.replicate 1501 'a').take SCRAPED_CONTENT_LIMIT).length =
        SCRAPED_CONTENT_LIMIT :=
  prompt_embeds_scraped_prefix companyLongScrape (S "p") _ _ _ _ _
    rfl rfl rfl rfl rfl
    (by simp only [List.length_replicate, SCRAPED_CONTENT_LIMIT]; omega)

/-- C8 counterexample: on the raw response `" ```json "` the stripped text
contains the JSON fence opener, the last closing marker (index 0) does not
lie after the opener's end (index 7), and the text handed to the decoder is
the stripped response — which differs from the untrimmed original, refuting
the claim that the untrimmed original text is decoded. -/
theorem fallthrough_decodes_trimmed_not_original :
    findSub (stripL (S " ```json ")) (S "```json") = some 0
  ∧ rfindSub (stripL (S " ```json ")) (S "```") = some 0
  ∧ cleanResponse (S " ```json ") = stripL (S " ```json ")
  ∧ stripL (S " ```json ") ≠ S " ```json " :=
  ⟨rfl, rfl, rfl, by decide⟩

/-- C8 amended: when the stripped response contains the JSON fence opener
but the last closing marker does not lie after the opener's end, the clean
step falls through and hands the stripped (trimmed) response — not any
extracted substring — to the decoder. -/
theorem fallthrough_uses_trimmed_text :
    ∀ (response : List Char) (i e : Nat),
      findSub (stripL response) (S "```json") = some i →
      rfindSub (stripL response) (S "```") = some e →
      e ≤ i + 7 →
      cleanResponse response = stripL response := by
  intro r i e h1 h2 h3
  simp only [cleanResponse, h1, h2]
  rw [if_neg]
  omega

/-- Witness for C8 at the concrete raw response `" ```json raw "`: the fence
opener occurs at index 0 and the last `"```"` is at index 0, so the clean
step returns the stripped response. -/
theorem fallthrough_uses_trimmed_text_witness :
    cleanResponse (S " ```json raw ") = stripL (S " ```json raw ") :=
  fallthrough_uses_trimmed_text (S " ```json raw ") 0 0 rfl rfl (by omega)

/-- If the auxiliary scan reports no occurrence, the pattern is not an infix
of the text, and conversely. First direction: no-infix gives `none`. -/
theorem findSubAux_eq_none_of_not_infix (pat : List Char) :
    ∀ (s : List Char), ¬ pat <:+: s → ∀ n, findSubAux pat s n = none := by
  intro s
  induction s with
  | nil =>
    intro h n
    by_cases hp : pat.isPrefixOf ([] : List Char) = true
    · exact absurd ( List.IsPrefix.isInfix (List.isPrefixOf_iff_prefix.mp hp)) h
    · simp [findSubAux, hp]
  | cons c t ih =>
    intro h n
    by_cases hp : pat.isPrefixOf (c :: t) = true
    · exact absurd ( List.IsPrefix.isInfix (List.isPrefixOf_iff_prefix.mp hp)) h
    · rw [findSubAux, if_neg (by simp [hp])]
      exact ih (fun hinf => h (List.infix_cons_iff.mpr (Or.inr hinf))) (n + 1)

/-- If the auxiliary scan reports an occurrence, the pattern is an infix of
the text. -/
theorem infix_of_findSubAux_eq_some (pat : List Char) :
    ∀ (s : List Char) (n k : Nat), findSubAux pat s n = some k → pat <:+: s := by
  intro s
  induction s with
  | nil =>
    intro n k h
    by_cases hp : pat.isPrefixOf ([] : List Char) = true
    · exact List.IsPrefix.isInfix (List.isPrefixOf_iff_prefix.mp hp)
    · simp [findSubAux, hp] at h
  | cons c t ih =>
    intro n k h
    by_cases hp : pat.isPrefixOf (c :: t) = true
    · exact List.IsPrefix.isInfix (List.isPrefixOf_iff_prefix.mp hp)
    · rw [findSubAux, if_neg (by simp [hp])] at h
      exact List.infix_cons_iff.mpr (Or.inr (ih (n + 1) k h))

/-- If the pattern is an infix of the text, the auxiliary scan finds an
occurrence. -/
theorem findSubAux_isSome_of_infix (pat : List Char) :
    ∀ (s : List Char), pat <:+: s → ∀ n, (findSubAux pat s n).isSome = true := by
  intro s
  induction s with
  | nil =>
    intro h n
    have hnil : pat = [] := by
      have hle := List.IsInfix.length_le h
      simp only [List.length_nil] at hle
      exact List.eq_nil_of_length_eq_zero (Nat.le_zero.mp hle)
    subst hnil
    simp [findSubAux]
  | cons c t ih =>
    intro h n
    by_cases hp : pat.isPrefixOf (c :: t) = true
    · rw [findSubAux, if_pos hp]
      rfl
    · rw [findSubAux, if_neg (by simp [hp])]
      rcases List.infix_cons_iff.mp h with hpre | hinf
      · exact absurd (List.isPrefixOf_iff_prefix.mpr hpre) hp
      · exact ih hinf (n + 1)

/-- The Python `in` test on strings is infix occurrence: `containsSub`
returns `false` exactly when the pattern does not occur as a substring. -/
theorem containsSub_eq_false_iff (s pat : List Char) :
    containsSub s pat = false ↔ ¬ pat <:+: s := by
  constructor
  · intro h hinf
    have := findSubAux_isSome_of_infix pat s hinf 0
    rw [containsSub, findSub] at h
    rw [this] at h
    exact Bool.true_eq_false ▸ h.symm ▸ rfl
  · intro h
    rw [containsSub, findSub, findSubAux_eq_none_of_not_infix pat s h 0]
    rfl

/-- A successful Boolean prefix test bounds the pattern's length. -/
theorem length_le_of_isPrefixOf {l l' : List Char} (h : l.isPrefixOf l' = true) :
    l.length ≤ l'.length :=
  List.IsPrefix.length_le (List.isPrefixOf_iff_prefix.mp h)

/-- Correctness of the downward scan `rfindFrom`: if the pattern occurs at
`k ≤ i` and at no position in `(k, i]`, the scan from `i` returns `k`. -/
theorem rfindFrom_eq_some (s pat : List Char) (k : Nat) :
    ∀ i, k ≤ i → pat.isPrefixOf (s.drop k) = true →
      (∀ j, k < j → j ≤ i → pat.isPrefixOf (s.drop j) = false) →
      rfindFrom s pat i = some k := by
  intro i
  induction i with
  | zero =>
    intro hk hp _
    have hk0 : k = 0 := by omega
    subst hk0
    rw [rfindFrom, if_pos (by simpa using hp)]
  | succ i ih =>
    intro hk hp hno
    by_cases hki : k = i + 1
    · subst hki
      rw [rfindFrom, if_pos hp]
    · have hni : pat.isPrefixOf (s.drop (i + 1)) = false :=
        hno (i + 1) (by omega) (by omega)
      rw [rfindFrom, if_neg (by simp [hni])]
      exact ih (by omega) hp (fun j h1 h2 => hno j h1 (by omega))

/-- Left trim drops a leading whitespace character. -/
theorem ltrim_cons_of_ws {c : Char} (h : isPyWs c = true) (xs : List Char) :
    ltrim (c :: xs) = ltrim xs := by
  simp [ltrim, List.dropWhile_cons, h]

/-- Left trim keeps a leading non-whitespace character. -/
theorem ltrim_cons_of_not_ws {c : Char} (h : isPyWs c = false) (xs : List Char) :
    ltrim (c :: xs) = c :: xs := by
  simp [ltrim, List.dropWhile_cons, h]

/-- How left trim distributes over an append. -/
theorem ltrim_append (a b : List Char) :
    ltrim (a ++ b) = if (ltrim a).isEmpty then ltrim b else ltrim a ++ b := by
  induction a with
  | nil => simp [ltrim]
  | cons c t ih =>
    by_cases hc : isPyWs c = true
    · rw [List.cons_append, ltrim_cons_of_ws hc, ih, ltrim_cons_of_ws hc]
    · rw [Bool.not_eq_true] at hc
      rw [List.cons_append, ltrim_cons_of_not_ws hc, ltrim_cons_of_not_ws hc]
      simp

/-- Stripping a text padded with one newline on each side equals stripping
the text itself. -/
theorem stripL_pad (xs : List Char) :
    stripL ('\n' :: (xs ++ ['\n'])) = stripL xs := by
  have hws : isPyWs '\n' = true := rfl
  simp only [stripL, List.reverse_cons, List.reverse_append, List.reverse_nil,
    List.nil_append, List.append_assoc, List.singleton_append, List.cons_append]
  rw [ltrim_cons_of_ws hws, ltrim_append]
  by_cases he : (ltrim xs.reverse).isEmpty = true
  · rw [if_pos he]
    rw [List.isEmpty_iff.mp he]
    rfl
  · rw [if_neg (by simp [he])]
    simp only [List.reverse_append, List.reverse_cons, List.reverse_nil,
      List.nil_append, List.singleton_append]
    rw [ltrim_cons_of_ws hws]

/-- A text that begins and ends with non-whitespace characters is unchanged
by stripping. -/
theorem stripL_of_ends (c d : Char) (mid : List Char)
    (hc : isPyWs c = false) (hd : isPyWs d = false) :
    stripL (c :: (mid ++ [d])) = c :: (mid ++ [d]) := by
  simp only [stripL, List.reverse_cons, List.reverse_append, List.reverse_nil,
    List.nil_append, List.append_assoc, List.singleton_append, List.cons_append]
  rw [ltrim_cons_of_not_ws hd]
  rw [show (d :: (mid.reverse ++ [c])).reverse = c :: (mid ++ [d]) by simp]
  rw [ltrim_cons_of_not_ws hc]

/-- Wrap a payload in a JSON-flavoured fence, as an LLM would emit it. -/
def wrapJsonFence (payload : List Char) : List Char :=
  S "```json\n" ++ payload ++ S "\n```"

/-- Wrap a payload in a generic triple-backtick fence. -/
def wrapGenericFence (payload : List Char) : List Char :=
  S "```\n" ++ payload ++ S "\n```"

/-- The stripped text is a contiguous slice of the original. -/
theorem stripL_infix_self (p : List Char) : stripL p <:+: p := by
  have h1 : ltrim p.reverse <:+ p.reverse := List.dropWhile_suffix isPyWs
  have h2 : (ltrim p.reverse).reverse <+: p := by
    have := List.reverse_prefix.mpr h1
    rwa [List.reverse_reverse] at this
  have h3 : ltrim ((ltrim p.reverse).reverse) <:+ (ltrim p.reverse).reverse :=
    List.dropWhile_suffix isPyWs
  exact List.IsInfix.trans (List.IsSuffix.isInfix h3) ( List.IsPrefix.isInfix h2)

/-- A prefix of an append short enough to fit inside the left part is a
prefix of the left part. -/
theorem prefix_of_append_left {l a b : List Char} (h : l <+: a ++ b)
    (hlen : l.length ≤ a.length) : l <+: a := by
  have heq := List.prefix_iff_eq_take.mp h
  rw [List.take_append_of_le_length hlen] at heq
  rw [heq]
  exact List.take_prefix _ _

/-- Characters inside an occurrence of a pattern agree with the pattern. -/
theorem getElem?_of_occurrence {s pat : List Char} {i : Nat} (v : List Char)
    (h : s.drop i = pat ++ v) (j : Nat) (hj : j < pat.length) :
    s[i + j]? = pat[j]? := by
  rw [← List.getElem?_drop, h, List.getElem?_append_left hj]

/-- Cleaning a raw response that contains no triple backtick at all reduces
to stripping it: neither fence branch fires. -/
theorem clean_bare (p : List Char) (hp : containsSub p (S "```") = false) :
    cleanResponse p = stripL p := by
  have hinf : ¬ (S "```") <:+: p := (containsSub_eq_false_iff p (S "```")).mp hp
  have hnotJson : ¬ (S "```json") <:+: stripL p := by
    intro h
    exact hinf (List.IsInfix.trans
      (List.IsInfix.trans
        ( List.IsPrefix.isInfix
          ( List.isPrefixOf_iff_prefix.mp
            (show (S "```").isPrefixOf (S "```json") = true from rfl))) h)
      (stripL_infix_self p))
  have hfind : findSub (stripL p) (S "```json") = none :=
    findSubAux_eq_none_of_not_infix _ _ hnotJson 0
  have hpre : (S "```").isPrefixOf (stripL p) = false := by
    cases hq : (S "```").isPrefixOf (stripL p) with
    | false => rfl
    | true =>
      exact absurd (List.IsInfix.trans
        ( List.IsPrefix.isInfix ( List.isPrefixOf_iff_prefix.mp hq))
        (stripL_infix_self p)) hinf
  simp only [cleanResponse, hfind]
  rw [if_neg (by simp [hpre])]

/-- Cleaning a JSON-fenced payload extracts the payload and strips it —
unconditionally: the opener is found at index 0 and the last `"```"` is the
closing fence. -/
theorem clean_wrapJson (p : List Char) :
    cleanResponse (wrapJsonFence p) = stripL p := by
  have hshape : wrapJsonFence p = '`' :: ((S "``json\n" ++ p ++ S "\n``") ++ ['`']) := by
    rw [wrapJsonFence, show S "```json\n" = '`' :: S "``json\n" from rfl,
      show S "\n```" = S "\n``" ++ ['`'] from rfl]
    simp [List.append_assoc]
  have hstrip : stripL (wrapJsonFence p) = wrapJsonFence p := by
    rw [hshape, stripL_of_ends '`' '`' _ rfl rfl]
  have hfind : findSub (wrapJsonFence p) (S "```json") = some 0 := rfl
  have hlen : (wrapJsonFence p).length = p.length + 12 := by
    simp only [wrapJsonFence, List.length_append]
    rw [show (S "```json\n").length = 8 from rfl, show (S "\n```").length = 4 from rfl]
    omega
  have hrfind : rfindSub (wrapJsonFence p) (S "```") = some (p.length + 9) := by
    simp only [rfindSub]
    rw [hlen]
    apply rfindFrom_eq_some
    · omega
    · have hw : wrapJsonFence p = (S "```json\n" ++ p ++ ['\n']) ++ S "```" := by
        rw [wrapJsonFence, show S "\n```" = ['\n'] ++ S "```" from rfl]
        simp [List.append_assoc]
      have hA : (S "```json\n" ++ p ++ ['\n']).length = p.length + 9 := by
        simp only [List.length_append]
        rw [show (S "```json\n").length = 8 from rfl]
        simp only [List.length_cons, List.length_nil]
        omega
      rw [hw, ← hA, List.drop_left]
      rfl
    · intro j hj1 hj2
      cases hq : (S "```").isPrefixOf ((wrapJsonFence p).drop j) with
      | false => rfl
      | true =>
        exfalso
        have hle := length_le_of_isPrefixOf hq
        rw [List.length_drop, hlen, show (S "```").length = 3 from rfl] at hle
        omega
  simp only [cleanResponse, hstrip, hfind, hrfind]
  rw [if_pos (by omega)]
  have hslice : sliceL (wrapJsonFence p) (0 + 7) (p.length + 9) = '\n' :: (p ++ ['\n']) := by
    simp only [sliceL, Nat.zero_add]
    rw [show p.length + 9 - 7 = p.length + 2 by omega,
      show (wrapJsonFence p).drop 7 = '\n' :: (p ++ S "\n```") from rfl,
      List.take_succ_cons, List.take_append 1,
      show (S "\n```").take 1 = ['\n'] from rfl]
  rw [hslice, stripL_pad]

/-- In a generic-fenced, backtick-free payload the JSON fence opener does
not occur: any occurrence would either overlap one of the two newline
characters that flank the payload (impossible, the pattern has no newline)
or lie entirely inside the payload (impossible, the payload has no
backtick). -/
theorem no_tickjson_in_generic (p : List Char)
    (hp : containsSub p (S "```") = false) :
    ¬ (S "```json") <:+: wrapGenericFence p := by
  intro hinf
  obtain ⟨u, v, huv⟩ := hinf
  have hlen : (wrapGenericFence p).length = p.length + 8 := by
    simp only [wrapGenericFence, List.length_append]
    rw [show (S "```\n").length = 4 from rfl, show (S "\n```").length = 4 from rfl]
    omega
  have hdrop : (wrapGenericFence p).drop u.length = S "```json" ++ v := by
    rw [← huv, List.append_assoc, List.drop_left]
  have hbound : u.length + 7 ≤ p.length + 8 := by
    have := congrArg List.length huv
    simp only [List.length_append] at this
    rw [show (S "```json").length = 7 from rfl] at this
    omega
  have hch : ∀ j, j < 7 → (wrapGenericFence p)[u.length + j]? = (S "```json")[j]? :=
    fun j hj => getElem?_of_occurrence v hdrop j (by rw [show (S "```json").length = 7 from rfl]; omega)
  by_cases hle : u.length ≤ 3
  · have h3 : (wrapGenericFence p)[(3 : Nat)]? = some '\n' := by
      rw [show wrapGenericFence p = '`' :: ('`' :: ('`' :: ('\n' :: (p ++ S "\n```"))))
        from rfl]
      simp
    have hje : (wrapGenericFence p)[u.length + (3 - u.length)]? =
        (S "```json")[3 - u.length]? := hch _ (by omega)
    rw [show u.length + (3 - u.length) = 3 by omega, h3] at hje
    obtain ⟨n, hn⟩ : ∃ n, u.length = n := ⟨_, rfl⟩
    rw [hn] at hje hle
    interval_cases n <;> exact absurd hje (by decide)
  · by_cases hin : u.length + 7 ≤ p.length + 4
    · have hge : 4 ≤ u.length := by omega
      obtain ⟨k, hk⟩ : ∃ k, u.length = (S "```\n").length + k :=
        ⟨u.length - 4, by rw [show (S "```\n").length = 4 from rfl]; omega⟩
      have hk4 : u.length = 4 + k := by
        rw [show (S "```\n").length = 4 from rfl] at hk
        omega
      have hk7 : k + 7 ≤ p.length := by omega
      have hdrop2 : (wrapGenericFence p).drop u.length = p.drop k ++ S "\n```" := by
        rw [wrapGenericFence, List.append_assoc, hk, List.drop_append,
          List.drop_append_eq_append_drop,
          show k - p.length = 0 by omega, List.drop_zero]
      have hprefix2 : (S "```json") <+: p.drop k := by
        apply prefix_of_append_left (b := S "\n```")
        · rw [← hdrop2]
          exact ⟨v, hdrop.symm⟩
        · rw [show (S "```json").length = 7 from rfl, List.length_drop]
          omega
      have : (S "```") <:+: p :=
        List.IsInfix.trans
          ( List.IsPrefix.isInfix
            ( List.isPrefixOf_iff_prefix.mp
              (show (S "```").isPrefixOf (S "```json") = true from rfl)))
          (List.IsInfix.trans ( List.IsPrefix.isInfix hprefix2)
            (List.IsSuffix.isInfix (List.drop_suffix _ _)))
      exact absurd this ((containsSub_eq_false_iff p (S "```")).mp hp)
    · have hA2 : (S "```\n" ++ p).length = p.length + 4 := by
        simp only [List.length_append]
        rw [show (S "```\n").length = 4 from rfl]
        omega
      have hnl : (wrapGenericFence p)[p.length + 4]? = some '\n' := by
        rw [show wrapGenericFence p = (S "```\n" ++ p) ++ S "\n```" from rfl,
          List.getElem?_append_right hA2.le, hA2, Nat.sub_self]
        decide
      have hje : (wrapGenericFence p)[u.length + (p.length + 4 - u.length)]? =
          (S "```json")[p.length + 4 - u.length]? := hch _ (by omega)
      rw [show u.length + (p.length + 4 - u.length) = p.length + 4 by omega, hnl] at hje
      obtain ⟨j, hj⟩ : ∃ j, p.length + 4 - u.length = j := ⟨_, rfl⟩
      have hj3 : 3 ≤ j := by omega
      have hj7 : j < 7 := by omega
      rw [hj] at hje
      interval_cases j <;> exact absurd hje (by decide)


/-- Cleaning a generic-fenced, backtick-free payload peels exactly one fence
layer and strips the payload. -/
theorem clean_wrapGeneric (p : List Char) (hp : containsSub p (S "```") = false) :
    cleanResponse (wrapGenericFence p) = stripL p := by
  have hshape : wrapGenericFence p = '`' :: ((S "``\n" ++ p ++ S "\n``") ++ ['`']) := by
    rw [wrapGenericFence, show S "```\n" = '`' :: S "``\n" from rfl,
      show S "\n```" = S "\n``" ++ ['`'] from rfl]
    simp [List.append_assoc]
  have hstrip : stripL (wrapGenericFence p) = wrapGenericFence p := by
    rw [hshape, stripL_of_ends '`' '`' _ rfl rfl]
  have hfind : findSub (wrapGenericFence p) (S "```json") = none :=
    findSubAux_eq_none_of_not_infix _ _ (no_tickjson_in_generic p hp) 0
  have hpre : (S "```").isPrefixOf (wrapGenericFence p) = true := rfl
  have hw : wrapGenericFence p = (S "```\n" ++ p ++ ['\n']) ++ S "```" := by
    rw [wrapGenericFence, show S "\n```" = ['\n'] ++ S "```" from rfl]
    simp [List.append_assoc]
  have hsuf : (S "```").isSuffixOf (wrapGenericFence p) = true := by
    apply List.isSuffixOf_iff_suffix.mpr
    rw [hw]
    exact List.suffix_append _ _
  have hlen : (wrapGenericFence p).length = p.length + 8 := by
    simp only [wrapGenericFence, List.length_append]
    rw [show (S "```\n").length = 4 from rfl, show (S "\n```").length = 4 from rfl]
    omega
  simp only [cleanResponse, hstrip, hfind]
  rw [if_pos (by rw [hpre, hsuf]; rfl)]
  rw [hlen, show p.length + 8 - 6 = p.length + 2 by omega,
    show (wrapGenericFence p).drop 3 = '\n' :: (p ++ S "\n```") from rfl,
    List.take_succ_cons, List.take_append 1,
    show (S "\n```").take 1 = ['\n'] from rfl, stripL_pad]

/-- C3 counterexample: the valid JSON payload `["```json1```"]` decodes to
the one-element array when fenced, but given bare the cleaning step finds
`"```json"` inside it, extracts the span up to the last `"```"`, and decodes
`1` — a different record, refuting payload-independent fence equivalence. -/
theorem fence_equivalence_fails_on_backtick_payload :
    parseResponse (S "[\"```json1```\"]") = .ok (.pyint 1)
  ∧ parseResponse (wrapJsonFence (S "[\"```json1```\"]")) =
      .ok (.pylist [.pystr (S "```json1```")])
  ∧ parseResponse (S "[\"```json1```\"]") ≠
      parseResponse (wrapJsonFence (S "[\"```json1```\"]")) := by
  refine ⟨rfl, rfl, ?_⟩
  intro h
  rw [show parseResponse (S "[\"```json1```\"]") = Except.ok (PyVal.pyint 1) from rfl,
    show parseResponse (wrapJsonFence (S "[\"```json1```\"]")) =
      Except.ok (PyVal.pylist [PyVal.pystr (S "```json1```")]) from rfl] at h
  exact PyVal.noConfusion (Except.ok.inj h)

/-- C3 amended: for every payload that contains no triple backtick, the
parse step yields the same decoded record whether the payload is given
bare, wrapped in a ```json fence, or wrapped in a generic ``` fence. -/
theorem fence_equivalence_backtick_free :
    ∀ payload : List Char, containsSub payload (S "```") = false →
      parseResponse (wrapJsonFence payload) = parseResponse payload ∧
      parseResponse (wrapGenericFence payload) = parseResponse payload := by
  intro p hp
  refine ⟨?_, ?_⟩ <;> simp only [parseResponse]
  · rw [clean_wrapJson, clean_bare p hp]
  · rw [clean_wrapGeneric p hp, clean_bare p hp]

/-- Witness for C3 (amended) at the backtick-free payload `{"a": 1}`: all
three presentations decode identically. -/
theorem fence_equivalence_backtick_free_witness :
    parseResponse (wrapJsonFence (S "\x7b\"a\": 1\x7d")) =
      parseResponse (S "\x7b\"a\": 1\x7d") ∧
    parseResponse (wrapGenericFence (S "\x7b\"a\": 1\x7d")) =
      parseResponse (S "\x7b\"a\": 1\x7d") :=
  fence_equivalence_backtick_free (S "\x7b\"a\": 1\x7d") rfl

end Agent
